import Mathlib

/-!
Shallow embedding of the Soroban contract `RealEstateNFT`
(src/contracts/hello-world/src/lib.rs) and verification of its
specification claims.

Modelling conventions:
* `u64` values are modelled as `Nat` (the contract's release profile traps
  on overflow, so successful executions stay below `2^64` and coincide with
  the unbounded model).
* `Address` is an abstract identity, modelled as `Nat`.
* Contract instance storage is a record of optional cells / partial maps,
  mirroring the keyed `env.storage().instance()` namespace: the `ADMIN`
  cell, the `PROP_CTR` cell, the `PROP_STAT` cell, and the three keyed
  families `PropertyRegistry::Property(id)`,
  `OwnershipRegistry::Ownership(id, addr)`, `UserProperties::Properties(addr)`.
* A Rust `panic!`/`expect` aborts the enclosing host transaction and reverts
  every write, so each operation is a pure function returning
  `Except ContractError ContractState`; all writes happen on the `.ok` path
  only, in the order of the source's `set` calls.
* `require_auth` is an external authorizer assumed to succeed for the stated
  caller (authorization is out of scope of the spec's core).
* The ledger timestamp `env.ledger().timestamp()` is passed in as a `now`
  argument.
-/

namespace RealEstate

abbrev Address := Nat

/-- `Property` struct of the contract. -/
structure Property where
  property_id : Nat
  title : String
  location : String
  description : String
  total_shares : Nat
  price_per_share : Nat
  image_url : String
  registration_time : Nat
  is_verified : Bool
deriving Repr, DecidableEq

/-- `OwnershipShare` struct of the contract. -/
structure OwnershipShare where
  property_id : Nat
  owner : Address
  shares : Nat
  purchase_time : Nat
deriving Repr, DecidableEq

/-- `PropertyStats` struct of the contract. -/
structure PropertyStats where
  total_properties : Nat
  verified_properties : Nat
  total_owners : Nat
  total_transactions : Nat
deriving Repr, DecidableEq

/-- The panics of the contract, one constructor per distinct failure
(`panic!`/`expect` message), using the spec's error taxonomy names. -/
inductive ContractError where
  | AlreadyInitialized
  | NotInitialized
  | NotFound
  | AlreadyVerified
  | NotVerified
  | NoBalance
  | InsufficientShares
deriving Repr, DecidableEq

/-- The contract's instance storage, one field per key family. -/
structure ContractState where
  contract_admin : Option Address
  property_counter : Option Nat
  property_stats : Option PropertyStats
  properties : Nat → Option Property
  ownership : Nat → Address → Option OwnershipShare
  user_properties : Address → Option (List Nat)

/-- A fresh contract instance: empty storage. -/
def initState : ContractState where
  contract_admin := none
  property_counter := none
  property_stats := none
  properties := fun _ => none
  ownership := fun _ _ => none
  user_properties := fun _ => none

def zeroStats : PropertyStats where
  total_properties := 0
  verified_properties := 0
  total_owners := 0
  total_transactions := 0

/-- `get_property_stats`: read the stats cell, defaulting to the zero record. -/
def get_property_stats (s : ContractState) : PropertyStats :=
  s.property_stats.getD zeroStats

/-- `initialize(env, admin)` (named `init_contract` here): fails if the
admin cell is already set, otherwise stores the admin and zero-initializes
stats and the property counter. -/
def init_contract (s : ContractState) (admin : Address) :
    Except ContractError ContractState :=
  if s.contract_admin.isSome then .error .AlreadyInitialized
  else .ok { s with
    contract_admin := some admin
    property_stats := some zeroStats
    property_counter := some 0 }

/-- `register_property`: pre-increments the counter (defaulting to 0 when
the cell is absent), stores a fresh unverified property under the new id,
and bumps `total_properties`. Returns the new id. -/
def register_property (s : ContractState)
    (title location description : String)
    (total_shares price_per_share : Nat) (image_url : String)
    (now : Nat) : Nat × ContractState :=
  let property_counter := s.property_counter.getD 0 + 1
  let property : Property :=
    { property_id := property_counter
      title := title
      location := location
      description := description
      total_shares := total_shares
      price_per_share := price_per_share
      image_url := image_url
      registration_time := now
      is_verified := false }
  let stats := get_property_stats s
  let stats := { stats with total_properties := stats.total_properties + 1 }
  (property_counter,
    { s with
      properties := fun m =>
        if m = property_counter then some property else s.properties m
      property_counter := some property_counter
      property_stats := some stats })

/-- `verify_property`: requires the admin cell (set at initialization),
fails `NotFound` on an unknown id, `AlreadyVerified` when the flag is
already set; otherwise flips the flag and bumps `verified_properties`. -/
def verify_property (s : ContractState) (property_id : Nat) :
    Except ContractError ContractState :=
  match s.contract_admin with
  | none => .error .NotInitialized
  | some _ =>
    match s.properties property_id with
    | none => .error .NotFound
    | some property =>
      if property.is_verified then .error .AlreadyVerified
      else
        let stats := get_property_stats s
        .ok { s with
          properties := fun m =>
            if m = property_id then some { property with is_verified := true }
            else s.properties m
          property_stats :=
            some { stats with
              verified_properties := stats.verified_properties + 1 } }

/-- `purchase_shares`: fails `NotFound` on an unknown property and
`NotVerified` on an unverified one; otherwise adds `shares` to any existing
balance of `buyer`, rewrites the buyer's property list (appending the id
only for a first-time owner), and bumps the stats (`total_owners` only on
the new-owner path, `total_transactions` on both paths). -/
def purchase_shares (s : ContractState) (property_id shares : Nat)
    (buyer : Address) (now : Nat) : Except ContractError ContractState :=
  match s.properties property_id with
  | none => .error .NotFound
  | some property =>
    if !property.is_verified then .error .NotVerified
    else
      let existing := s.ownership property_id buyer
      let is_new_owner := existing.isNone
      let new_shares := shares + (match existing with
        | some e => e.shares
        | none => 0)
      let ownership_share : OwnershipShare :=
        { property_id := property_id
          owner := buyer
          shares := new_shares
          purchase_time := now }
      let user_props := (s.user_properties buyer).getD []
      let user_props' :=
        if is_new_owner then user_props ++ [property_id] else user_props
      let stats := get_property_stats s
      let stats' :=
        if is_new_owner then
          { stats with
            total_owners := stats.total_owners + 1
            total_transactions := stats.total_transactions + 1 }
        else
          { stats with total_transactions := stats.total_transactions + 1 }
      .ok { s with
        property_stats := some stats'
        ownership := fun p a =>
          if p = property_id ∧ a = buyer then some ownership_share
          else s.ownership p a
        user_properties := fun a =>
          if a = buyer then some user_props' else s.user_properties a }

/-- `transfer_shares`: fails `NoBalance` when the sender has no ownership
record, `InsufficientShares` when the balance is below `shares`. Otherwise
the sender's balance is decremented; the recipient's record is read from
the pre-transfer storage, its new balance is `existing + shares` (or
`shares` for a first-time recipient, which also appends to the recipient's
property list and bumps `total_owners`); `total_transactions` is bumped
once; the sender's record is written first and the recipient's record is
written last (so on a self-transfer the recipient write wins). -/
def transfer_shares (s : ContractState) (property_id : Nat)
    (sender receiver : Address) (shares : Nat) (now : Nat) :
    Except ContractError ContractState :=
  match s.ownership property_id sender with
  | none => .error .NoBalance
  | some sender_own =>
    if sender_own.shares < shares then .error .InsufficientShares
    else
      let sender_own' := { sender_own with shares := sender_own.shares - shares }
      let receiver_own := s.ownership property_id receiver
      let new_receiver_own : OwnershipShare :=
        match receiver_own with
        | some existing =>
          { property_id := property_id
            owner := receiver
            shares := existing.shares + shares
            purchase_time := now }
        | none =>
          { property_id := property_id
            owner := receiver
            shares := shares
            purchase_time := now }
      let s1 :=
        match receiver_own with
        | some _ => s
        | none =>
          let receiver_props := (s.user_properties receiver).getD []
          let stats := get_property_stats s
          { s with
            user_properties := fun a =>
              if a = receiver then some (receiver_props ++ [property_id])
              else s.user_properties a
            property_stats :=
              some { stats with total_owners := stats.total_owners + 1 } }
      let stats1 := get_property_stats s1
      let s2 := { s1 with
        property_stats :=
          some { stats1 with
            total_transactions := stats1.total_transactions + 1 } }
      let s3 := { s2 with
        ownership := fun p a =>
          if p = property_id ∧ a = sender then some sender_own'
          else s2.ownership p a }
      let s4 := { s3 with
        ownership := fun p a =>
          if p = property_id ∧ a = receiver then some new_receiver_own
          else s3.ownership p a }
      .ok s4

/-- `get_property`: fail-on-missing read of a property record. -/
def get_property (s : ContractState) (property_id : Nat) :
    Except ContractError Property :=
  match s.properties property_id with
  | none => .error .NotFound
  | some property => .ok property

/-- `get_ownership`: default-to-zero read of an ownership record. -/
def get_ownership (s : ContractState) (property_id : Nat) (owner : Address) :
    OwnershipShare :=
  (s.ownership property_id owner).getD
    { property_id := property_id
      owner := owner
      shares := 0
      purchase_time := 0 }

/-- `get_user_properties`: default-to-empty read of an owner's index. -/
def get_user_properties (s : ContractState) (owner : Address) : List Nat :=
  (s.user_properties owner).getD []

/-- `get_total_shares_owned`: fold of `get_ownership` over the owner's index. -/
def get_total_shares_owned (s : ContractState) (owner : Address) : Nat :=
  (get_user_properties s owner).foldl
    (fun total_shares property_id =>
      total_shares + (get_ownership s property_id owner).shares) 0

/-- `list_properties`: iterates ids from `start_idx` to
`min (start_idx + limit) counter` inclusive (empty when that range is
empty), skipping `i = 0` and missing records. -/
def list_properties (s : ContractState) (start_idx limit : Nat) :
    List Property :=
  let property_counter := s.property_counter.getD 0
  let end_idx :=
    if start_idx + limit > property_counter then property_counter
    else start_idx + limit
  (List.range' start_idx (end_idx + 1 - start_idx)).filterMap fun i =>
    if 0 < i then s.properties i else none

/-- One invocation of a state-changing entry point of the contract. -/
inductive Op where
  | initOp (admin : Address)
  | registerOp (title location description : String)
      (total_shares price_per_share : Nat) (image_url : String) (now : Nat)
  | verifyOp (property_id : Nat)
  | purchaseOp (property_id shares : Nat) (buyer : Address) (now : Nat)
  | transferOp (property_id : Nat) (sender receiver : Address)
      (shares : Nat) (now : Nat)

/-- Dispatch one entry point (`register_property` always succeeds and its
returned id is dropped). -/
def step (s : ContractState) (op : Op) : Except ContractError ContractState :=
  match op with
  | .initOp admin => init_contract s admin
  | .registerOp t l d ts pps iu now =>
    .ok (register_property s t l d ts pps iu now).2
  | .verifyOp pid => verify_property s pid
  | .purchaseOp pid sh b now => purchase_shares s pid sh b now
  | .transferOp pid a b sh now => transfer_shares s pid a b sh now

/-- Run one entry point as a host transaction: a failure reverts, leaving
the state unchanged. -/
def execOp (s : ContractState) (op : Op) : ContractState :=
  match step s op with
  | .ok s' => s'
  | .error _ => s

/-- Run a sequence of transactions. -/
def execOps (s : ContractState) (ops : List Op) : ContractState :=
  ops.foldl execOp s

/-- States reachable from a fresh instance by any sequence of calls. -/
def Reachable (s : ContractState) : Prop :=
  ∃ ops, execOps initState ops = s

/-- The state right after `initialize(admin)` on a fresh instance. -/
def postInitState (admin : Address) : ContractState :=
  execOp initState (.initOp admin)

/-- States reachable from a fresh instance whose first call is
`initialize` (the intended usage of the contract). -/
def InitReachable (s : ContractState) : Prop :=
  ∃ admin ops, execOps (postInitState admin) ops = s

/-- Stored property records carry their own key as `property_id`. -/
def IdMatch (s : ContractState) : Prop :=
  ∀ n P, s.properties n = some P → P.property_id = n

/-- Invariant of initialized instances: the admin cell is set and every
stored property sits at its own id, between 1 and the counter. -/
def Inv (s : ContractState) : Prop :=
  s.contract_admin.isSome = true ∧
    ∀ n P, s.properties n = some P →
      P.property_id = n ∧ 1 ≤ n ∧ n ≤ s.property_counter.getD 0

/-- Sum of a property's balances over a list of owners. -/
def owners_shares_sum (s : ContractState) (property_id : Nat)
    (owners : List Address) : Nat :=
  (owners.map fun a => (get_ownership s property_id a).shares).sum

/-! Concrete calls and states used by witnesses and counterexamples.
Identities: `0` is the admin, `1` and `2` are buyers. -/

def regA : Op := .registerOp "Alpha" "loc" "desc" 100 1 "img" 0

def regB : Op := .registerOp "Beta" "loc2" "desc2" 50 2 "img2" 5

/-- The `Property` record stored by `regA` (id 1, unverified). -/
def propA : Property :=
  { property_id := 1
    title := "Alpha"
    location := "loc"
    description := "desc"
    total_shares := 100
    price_per_share := 1
    image_url := "img"
    registration_time := 0
    is_verified := false }

/-- `initialize(0); regA`: property 1 registered, unverified. -/
def unverifiedState : ContractState :=
  execOps initState [.initOp 0, regA]

/-- `initialize(0); regA; verify(1)`: property 1 verified. -/
def verifiedState : ContractState :=
  execOps initState [.initOp 0, regA, .verifyOp 1]

/-- `initialize(0); regA; verify(1); purchase(1, 10, buyer 1)`. -/
def ownedState : ContractState :=
  execOps initState [.initOp 0, regA, .verifyOp 1, .purchaseOp 1 10 1 3]

/-- Register before initialization, then initialize: the counter is reset
to 0 while property 1 ("Alpha") is still stored. -/
def preInitRegState : ContractState :=
  execOps initState [regA, .initOp 0]

/-- Register before initialization, initialize, verify property 1. -/
def preInitVerifiedState : ContractState :=
  execOps initState [regA, .initOp 0, .verifyOp 1]

def oversoldOps : List Op :=
  [.initOp 0, .registerOp "T" "t" "t" 1 1 "t" 0, .verifyOp 1,
    .purchaseOp 1 2 1 0]

/-- A verified property with `total_shares = 1` of which buyer 1 bought 2. -/
def oversoldState : ContractState := execOps initState oversoldOps

/-! ## General lemmas about the transaction semantics -/

theorem execOp_of_ok {s s' : ContractState} {op : Op}
    (h : step s op = .ok s') : execOp s op = s' := by
  simp [execOp, h]

theorem execOp_of_error {s : ContractState} {op : Op} {e : ContractError}
    (h : step s op = .error e) : execOp s op = s := by
  simp [execOp, h]

theorem execOps_cons (s : ContractState) (op : Op) (ops : List Op) :
    execOps s (op :: ops) = execOps (execOp s op) ops := rfl

/-- Fields of the state produced by `register_property`. -/
theorem register_property_spec (s : ContractState)
    (t l d : String) (ts pps : Nat) (iu : String) (now : Nat) :
    (register_property s t l d ts pps iu now).1
        = s.property_counter.getD 0 + 1 ∧
    (register_property s t l d ts pps iu now).2.contract_admin
        = s.contract_admin ∧
    (register_property s t l d ts pps iu now).2.property_counter
        = some (s.property_counter.getD 0 + 1) ∧
    (register_property s t l d ts pps iu now).2.properties
        (s.property_counter.getD 0 + 1)
        = some { property_id := s.property_counter.getD 0 + 1
                 title := t
                 location := l
                 description := d
                 total_shares := ts
                 price_per_share := pps
                 image_url := iu
                 registration_time := now
                 is_verified := false } ∧
    (∀ m, m ≠ s.property_counter.getD 0 + 1 →
      (register_property s t l d ts pps iu now).2.properties m
        = s.properties m) := by
  refine ⟨rfl, rfl, rfl, by simp [register_property], ?_⟩
  intro m hm
  simp [register_property, hm]

/-- Inversion of a successful `init_contract`. -/
theorem init_contract_ok {s s' : ContractState} {a : Address}
    (h : init_contract s a = .ok s') :
    s.contract_admin = none ∧
    s'.contract_admin = some a ∧
    s'.property_counter = some 0 ∧
    s'.property_stats = some zeroStats ∧
    s'.properties = s.properties ∧
    s'.ownership = s.ownership ∧
    s'.user_properties = s.user_properties := by
  by_cases ha : s.contract_admin.isSome
  · simp [init_contract, ha] at h
  · simp only [init_contract, ha, if_false, Bool.false_eq_true,
      if_neg, Except.ok.injEq] at h
    subst h
    exact ⟨Option.not_isSome_iff_eq_none.mp ha, rfl, rfl, rfl, rfl, rfl, rfl⟩

/-- Inversion of a successful `verify_property`. -/
theorem verify_property_ok {s s' : ContractState} {pid : Nat}
    (h : verify_property s pid = .ok s') :
    ∃ Q, s.properties pid = some Q ∧ Q.is_verified = false ∧
      s'.contract_admin = s.contract_admin ∧
      s'.property_counter = s.property_counter ∧
      s'.ownership = s.ownership ∧
      s'.user_properties = s.user_properties ∧
      s'.properties pid = some { Q with is_verified := true } ∧
      (∀ m, m ≠ pid → s'.properties m = s.properties m) := by
  cases ha : s.contract_admin with
  | none => simp [verify_property, ha] at h
  | some a =>
    cases hp : s.properties pid with
    | none => simp [verify_property, ha, hp] at h
    | some Q =>
      cases hv : Q.is_verified with
      | true => simp [verify_property, ha, hp, hv] at h
      | false =>
        simp only [verify_property, ha, hp, hv, Bool.false_eq_true,
          if_false, Except.ok.injEq] at h
        subst h
        refine ⟨Q, rfl, hv, rfl, rfl, rfl, rfl, by simp, ?_⟩
        intro m hm
        simp [hm]

/-- A successful `purchase_shares` leaves the catalog fields unchanged. -/
theorem purchase_shares_ok {s s' : ContractState} {pid sh : Nat}
    {b : Address} {now : Nat}
    (h : purchase_shares s pid sh b now = .ok s') :
    s'.contract_admin = s.contract_admin ∧
    s'.property_counter = s.property_counter ∧
    s'.properties = s.properties := by
  cases hp : s.properties pid with
  | none => simp [purchase_shares, hp] at h
  | some P =>
    cases hv : P.is_verified with
    | false => simp [purchase_shares, hp, hv] at h
    | true =>
      simp only [purchase_shares, hp, hv, Bool.not_true, Bool.false_eq_true,
        if_false, Except.ok.injEq] at h
      subst h
      exact ⟨rfl, rfl, rfl⟩

/-- A successful `transfer_shares` leaves the catalog fields unchanged. -/
theorem transfer_shares_ok {s s' : ContractState} {pid : Nat}
    {a b : Address} {sh now : Nat}
    (h : transfer_shares s pid a b sh now = .ok s') :
    s'.contract_admin = s.contract_admin ∧
    s'.property_counter = s.property_counter ∧
    s'.properties = s.properties := by
  cases ho : s.ownership pid a with
  | none => simp [transfer_shares, ho] at h
  | some O =>
    by_cases hlt : O.shares < sh
    · simp [transfer_shares, ho, hlt] at h
    · simp only [transfer_shares, ho, hlt, if_true, if_neg, if_false,
        Except.ok.injEq] at h
      subst h
      cases hr : s.ownership pid b <;> simp [hr]

/-! ## Preservation of the storage invariants -/

theorem execOp_IdMatch {s : ContractState} (h : IdMatch s) (op : Op) :
    IdMatch (execOp s op) := by
  cases hstep : step s op with
  | error e => rw [execOp_of_error hstep]; exact h
  | ok s' =>
    rw [execOp_of_ok hstep]
    cases op with
    | initOp a =>
      intro n P hP
      rw [(init_contract_ok hstep).2.2.2.2.1] at hP
      exact h n P hP
    | registerOp t l d ts pps iu now =>
      intro n P hP
      obtain ⟨-, -, -, hnew, hold⟩ := register_property_spec s t l d ts pps iu now
      have hs' : s' = (register_property s t l d ts pps iu now).2 := by
        simpa [step] using hstep.symm
      subst hs'
      by_cases hn : n = s.property_counter.getD 0 + 1
      · subst hn
        rw [hnew] at hP
        cases hP
        rfl
      · rw [hold n hn] at hP
        exact h n P hP
    | verifyOp pid =>
      intro n P hP
      obtain ⟨Q, hQ, -, -, -, -, -, hpid, hother⟩ := verify_property_ok hstep
      by_cases hn : n = pid
      · subst hn
        rw [hpid] at hP
        cases hP
        exact h n Q hQ
      · rw [hother n hn] at hP
        exact h n P hP
    | purchaseOp pid sh b now =>
      intro n P hP
      rw [(purchase_shares_ok hstep).2.2] at hP
      exact h n P hP
    | transferOp pid a b sh now =>
      intro n P hP
      rw [(transfer_shares_ok hstep).2.2] at hP
      exact h n P hP

theorem execOps_IdMatch {s : ContractState} (h : IdMatch s) (ops : List Op) :
    IdMatch (execOps s ops) := by
  induction ops generalizing s with
  | nil => exact h
  | cons op ops ih => exact ih (execOp_IdMatch h op)

theorem initState_IdMatch : IdMatch initState := by
  intro n P hP
  simp [initState] at hP

theorem reachable_IdMatch {s : ContractState} (h : Reachable s) : IdMatch s := by
  obtain ⟨ops, rfl⟩ := h
  exact execOps_IdMatch initState_IdMatch ops

theorem execOp_Inv {s : ContractState} (h : Inv s) (op : Op) :
    Inv (execOp s op) := by
  obtain ⟨hadm, hprops⟩ := h
  cases hstep : step s op with
  | error e => rw [execOp_of_error hstep]; exact ⟨hadm, hprops⟩
  | ok s' =>
    rw [execOp_of_ok hstep]
    cases op with
    | initOp a =>
      exact absurd (init_contract_ok hstep).1 (by simp [Option.isSome_iff_exists] at hadm ⊢; rcases hadm with ⟨x, hx⟩; simp [hx])
    | registerOp t l d ts pps iu now =>
      obtain ⟨-, hadm', hctr, hnew, hold⟩ := register_property_spec s t l d ts pps iu now
      have hs' : s' = (register_property s t l d ts pps iu now).2 := by
        simpa [step] using hstep.symm
      subst hs'
      refine ⟨by rw [hadm']; exact hadm, ?_⟩
      intro n P hP
      rw [hctr]
      by_cases hn : n = s.property_counter.getD 0 + 1
      · subst hn
        rw [hnew] at hP
        cases hP
        exact ⟨rfl, by omega, by simp⟩
      · rw [hold n hn] at hP
        obtain ⟨h1, h2, h3⟩ := hprops n P hP
        exact ⟨h1, h2, by simp; omega⟩
    | verifyOp pid =>
      obtain ⟨Q, hQ, -, hadm', hctr, -, -, hpid, hother⟩ :=
        verify_property_ok hstep
      refine ⟨by rw [hadm']; exact hadm, ?_⟩
      intro n P hP
      rw [hctr]
      by_cases hn : n = pid
      · subst hn
        rw [hpid] at hP
        cases hP
        obtain ⟨h1, h2, h3⟩ := hprops n Q hQ
        exact ⟨h1, h2, h3⟩
      · rw [hother n hn] at hP
        exact hprops n P hP
    | purchaseOp pid sh b now =>
      obtain ⟨h1, h2, h3⟩ := purchase_shares_ok hstep
      refine ⟨by rw [h1]; exact hadm, ?_⟩
      intro n P hP
      rw [h3] at hP
      rw [h2]
      exact hprops n P hP
    | transferOp pid a b sh now =>
      obtain ⟨h1, h2, h3⟩ := transfer_shares_ok hstep
      refine ⟨by rw [h1]; exact hadm, ?_⟩
      intro n P hP
      rw [h3] at hP
      rw [h2]
      exact hprops n P hP

theorem execOps_Inv {s : ContractState} (h : Inv s) (ops : List Op) :
    Inv (execOps s ops) := by
  induction ops generalizing s with
  | nil => exact h
  | cons op ops ih => exact ih (execOp_Inv h op)

/-- On an invariant-respecting state, one call can change a stored property
record only by flipping its `is_verified` flag from `false` to `true`. -/
theorem execOp_properties_mono {s : ContractState} (h : Inv s) (op : Op)
    {n : Nat} {P : Property} (hP : s.properties n = some P) :
    (execOp s op).properties n = some P ∨
      (P.is_verified = false ∧
        (execOp s op).properties n
          = some { P with is_verified := true }) := by
  obtain ⟨hadm, hprops⟩ := h
  cases hstep : step s op with
  | error e => rw [execOp_of_error hstep]; exact .inl hP
  | ok s' =>
    rw [execOp_of_ok hstep]
    cases op with
    | initOp a =>
      exact absurd (init_contract_ok hstep).1
        (by rcases Option.isSome_iff_exists.mp hadm with ⟨x, hx⟩; simp [hx])
    | registerOp t l d ts pps iu now =>
      obtain ⟨-, -, -, -, hold⟩ := register_property_spec s t l d ts pps iu now
      have hs' : s' = (register_property s t l d ts pps iu now).2 := by
        simpa [step] using hstep.symm
      subst hs'
      have hn : n ≠ s.property_counter.getD 0 + 1 := by
        have := (hprops n P hP).2.2
        omega
      rw [hold n hn]
      exact .inl hP
    | verifyOp pid =>
      obtain ⟨Q, hQ, hQv, -, -, -, -, hpid, hother⟩ :=
        verify_property_ok hstep
      by_cases hn : n = pid
      · subst hn
        rw [hP] at hQ
        cases hQ
        exact .inr ⟨hQv, hpid⟩
      · rw [hother n hn]
        exact .inl hP
    | purchaseOp pid sh b now =>
      rw [(purchase_shares_ok hstep).2.2]
      exact .inl hP
    | transferOp pid a b sh now =>
      rw [(transfer_shares_ok hstep).2.2]
      exact .inl hP

theorem execOps_properties_mono (ops : List Op) :
    ∀ {s : ContractState}, Inv s → ∀ {n : Nat} {P : Property},
      s.properties n = some P →
      (execOps s ops).properties n = some P ∨
        (P.is_verified = false ∧
          (execOps s ops).properties n
            = some { P with is_verified := true }) := by
  induction ops with
  | nil => intro s _ n P hP; exact .inl hP
  | cons op ops ih =>
    intro s h n P hP
    have h' := execOp_Inv h op
    rw [execOps_cons]
    rcases execOp_properties_mono h op hP with h1 | ⟨hf, h1⟩
    · exact ih h' h1
    · rcases ih h' h1 with h2 | ⟨hf2, h2⟩
      · exact .inr ⟨hf, h2⟩
      · simp at hf2

/-- The state right after initialization satisfies the invariant. -/
theorem postInitState_Inv (a : Address) : Inv (postInitState a) := by
  constructor
  · rfl
  · intro n P hP
    simp [postInitState, execOp, step, init_contract, initState] at hP

theorem initReachable_Inv {s : ContractState} (h : InitReachable s) :
    Inv s := by
  obtain ⟨a, ops, rfl⟩ := h
  exact execOps_Inv (postInitState_Inv a) ops

/-! ## Success behavior of `purchase_shares` and `transfer_shares` -/

/-- A first purchase by a buyer with no ownership record. -/
theorem purchase_shares_new {s : ContractState} {pid : Nat} {P : Property}
    (sh : Nat) (b : Address) (now : Nat)
    (hP : s.properties pid = some P) (hv : P.is_verified = true)
    (h0 : s.ownership pid b = none) :
    ∃ s', purchase_shares s pid sh b now = .ok s' ∧
      s'.properties = s.properties ∧
      s'.ownership pid b
        = some { property_id := pid, owner := b, shares := sh,
                 purchase_time := now } ∧
      (∀ p c, ¬(p = pid ∧ c = b) → s'.ownership p c = s.ownership p c) ∧
      get_property_stats s'
        = { get_property_stats s with
            total_owners := (get_property_stats s).total_owners + 1
            total_transactions :=
              (get_property_stats s).total_transactions + 1 } := by
  simp only [purchase_shares, hP, hv, h0, Bool.not_true, Bool.false_eq_true,
    if_false, Option.isNone_none, if_true]
  refine ⟨_, rfl, rfl, ?_, ?_, ?_⟩
  · simp
  · intro p c hpc
    simp [hpc]
  · simp [get_property_stats]

/-- A repeat purchase by a buyer who already holds a balance. -/
theorem purchase_shares_existing {s : ContractState} {pid : Nat}
    {P : Property} {O : OwnershipShare} (sh : Nat) (b : Address) (now : Nat)
    (hP : s.properties pid = some P) (hv : P.is_verified = true)
    (hO : s.ownership pid b = some O) :
    ∃ s', purchase_shares s pid sh b now = .ok s' ∧
      s'.properties = s.properties ∧
      s'.ownership pid b
        = some { property_id := pid, owner := b, shares := sh + O.shares,
                 purchase_time := now } ∧
      (∀ p c, ¬(p = pid ∧ c = b) → s'.ownership p c = s.ownership p c) ∧
      get_property_stats s'
        = { get_property_stats s with
            total_transactions :=
              (get_property_stats s).total_transactions + 1 } := by
  simp only [purchase_shares, hP, hv, hO, Bool.not_true, Bool.false_eq_true,
    if_false, Option.isNone_some, if_true]
  refine ⟨_, rfl, rfl, ?_, ?_, ?_⟩
  · simp
  · intro p c hpc
    simp [hpc]
  · simp [get_property_stats]

/-- A successful transfer: the recipient's record (read before any write)
gets `existing + shares` and is written last; the sender's decremented
record survives only when sender and recipient differ. -/
theorem transfer_shares_spec {s : ContractState} {pid : Nat} {a : Address}
    {O : OwnershipShare} (b : Address) (sh now : Nat)
    (hO : s.ownership pid a = some O) (hsh : ¬ O.shares < sh) :
    ∃ s', transfer_shares s pid a b sh now = .ok s' ∧
      s'.ownership pid b
        = some { property_id := pid, owner := b,
                 shares := (get_ownership s pid b).shares + sh,
                 purchase_time := now } ∧
      (a ≠ b → s'.ownership pid a
        = some { O with shares := O.shares - sh }) ∧
      (∀ p c, ¬(p = pid ∧ c = a) → ¬(p = pid ∧ c = b) →
        s'.ownership p c = s.ownership p c) := by
  cases hr : s.ownership pid b with
  | none =>
    simp only [transfer_shares, hO, hsh, if_false, hr]
    refine ⟨_, rfl, ?_, ?_, ?_⟩
    · simp [get_ownership, hr]
    · intro hab
      have hcond : ¬(pid = pid ∧ a = b) := fun h => hab h.2
      simp only [hcond, if_false]
      simp
      intro h
      exact absurd h hab
    · intro p c h1 h2
      simp [h1, h2]
  | some E =>
    simp only [transfer_shares, hO, hsh, if_false, hr]
    refine ⟨_, rfl, ?_, ?_, ?_⟩
    · simp [get_ownership, hr]
    · intro hab
      have hcond : ¬(pid = pid ∧ a = b) := fun h => hab h.2
      simp only [hcond, if_false]
      simp
      intro h
      exact absurd h hab
    · intro p c h1 h2
      simp [h1, h2]

/-! ## Claim theorems -/

/-- Claim C3: `purchaseShares` on a registered but unverified property
fails with `NotVerified`, and the failed transaction leaves the entire
state (stats, ownership records, property indexes) unchanged. -/
theorem purchase_shares_unverified_fails (s : ContractState)
    (property_id : Nat) (P : Property) (shares : Nat) (buyer : Address)
    (now : Nat) (hP : s.properties property_id = some P)
    (hv : P.is_verified = false) :
    purchase_shares s property_id shares buyer now = .error .NotVerified ∧
    execOp s (.purchaseOp property_id shares buyer now) = s := by
  have herr : purchase_shares s property_id shares buyer now
      = .error .NotVerified := by
    simp [purchase_shares, hP, hv]
  have hstep : step s (.purchaseOp property_id shares buyer now)
      = .error .NotVerified := by simp [step, herr]
  exact ⟨herr, execOp_of_error hstep⟩

/-- Witness for C3: on the concrete state with unverified property 1,
the purchase fails with `NotVerified` and changes nothing. -/
theorem purchase_shares_unverified_fails_witness :
    purchase_shares unverifiedState 1 5 1 7 = .error .NotVerified ∧
    execOp unverifiedState (.purchaseOp 1 5 1 7) = unverifiedState :=
  purchase_shares_unverified_fails unverifiedState 1 propA 5 1 7
    (by decide) rfl

/-- Claim C4: `transferShares` by a sender whose record holds fewer shares
than requested fails with `InsufficientShares`; a sender with no record at
all fails with `NoBalance`; in both cases the failed transaction leaves the
state unchanged. -/
theorem transfer_shares_insufficient_fails (s : ContractState)
    (property_id : Nat) (sender receiver : Address) (shares now : Nat) :
    (∀ O, s.ownership property_id sender = some O → O.shares < shares →
      transfer_shares s property_id sender receiver shares now
          = .error .InsufficientShares ∧
      execOp s (.transferOp property_id sender receiver shares now) = s) ∧
    (s.ownership property_id sender = none →
      transfer_shares s property_id sender receiver shares now
          = .error .NoBalance ∧
      execOp s (.transferOp property_id sender receiver shares now) = s) := by
  constructor
  · intro O hO hlt
    have herr : transfer_shares s property_id sender receiver shares now
        = .error .InsufficientShares := by
      simp [transfer_shares, hO, hlt]
    have hstep : step s (.transferOp property_id sender receiver shares now)
        = .error .InsufficientShares := by simp [step, herr]
    exact ⟨herr, execOp_of_error hstep⟩
  · intro h0
    have herr : transfer_shares s property_id sender receiver shares now
        = .error .NoBalance := by
      simp [transfer_shares, h0]
    have hstep : step s (.transferOp property_id sender receiver shares now)
        = .error .NoBalance := by simp [step, herr]
    exact ⟨herr, execOp_of_error hstep⟩

/-- Witness for C4: on the concrete state where sender 1 holds 10 shares,
a transfer of 20 fails with `InsufficientShares`, and a transfer from the
recordless sender 5 fails with `NoBalance`; both change nothing. -/
theorem transfer_shares_insufficient_fails_witness :
    (transfer_shares ownedState 1 1 2 20 9 = .error .InsufficientShares ∧
      execOp ownedState (.transferOp 1 1 2 20 9) = ownedState) ∧
    (transfer_shares ownedState 1 5 2 20 9 = .error .NoBalance ∧
      execOp ownedState (.transferOp 1 5 2 20 9) = ownedState) :=
  ⟨(transfer_shares_insufficient_fails ownedState 1 1 2 20 9).1
      { property_id := 1, owner := 1, shares := 10, purchase_time := 3 }
      (by decide) (by decide),
    (transfer_shares_insufficient_fails ownedState 1 5 2 20 9).2 (by decide)⟩

/-- Counterexample to C1 as stated: with A = B (a self-transfer of 4 from
a balance of 10, a reachable situation satisfying the claim's hypotheses),
the balance afterwards is 14: A's balance does not decrease by 4 and the
before/after sums differ. -/
theorem transfer_conservation_cex :
    Reachable ownedState ∧
    (get_ownership ownedState 1 1).shares = 10 ∧
    (step ownedState (.transferOp 1 1 1 4 9)).isOk = true ∧
    (get_ownership (execOp ownedState (.transferOp 1 1 1 4 9)) 1 1).shares
      = 14 :=
  ⟨⟨[.initOp 0, regA, .verifyOp 1, .purchaseOp 1 10 1 3], rfl⟩,
    by decide, by decide, by decide⟩

/-- Claim C1 (amended: for distinct owners A ≠ B): a transfer of `shares`
from A to B where A's record holds at least `shares` succeeds, decreases
A's balance by `shares`, increases B's balance by `shares`, and preserves
the sum of the two balances. -/
theorem transfer_shares_conservation (s : ContractState)
    (property_id : Nat) (A B : Address) (shares now : Nat)
    (O : OwnershipShare) (hAB : A ≠ B)
    (hO : s.ownership property_id A = some O) (hsh : shares ≤ O.shares) :
    ∃ s', transfer_shares s property_id A B shares now = .ok s' ∧
      (get_ownership s' property_id A).shares
          = (get_ownership s property_id A).shares - shares ∧
      (get_ownership s' property_id B).shares
          = (get_ownership s property_id B).shares + shares ∧
      (get_ownership s' property_id A).shares
            + (get_ownership s' property_id B).shares
        = (get_ownership s property_id A).shares
            + (get_ownership s property_id B).shares := by
  obtain ⟨s', hok, hB, hA, -⟩ :=
    transfer_shares_spec B shares now hO (by omega)
  have hsA : (get_ownership s property_id A).shares = O.shares := by
    simp [get_ownership, hO]
  have h1 : (get_ownership s' property_id A).shares = O.shares - shares := by
    simp [get_ownership, hA hAB]
  have h2 : (get_ownership s' property_id B).shares
      = (get_ownership s property_id B).shares + shares := by
    simp [get_ownership, hB]
  exact ⟨s', hok, by rw [h1, hsA], h2, by rw [h1, h2, hsA]; omega⟩

/-- Witness for C1 (amended): sender 1 (holding 10) transfers 4 to
recipient 2 on the concrete reachable state. -/
theorem transfer_shares_conservation_witness :
    ∃ s', transfer_shares ownedState 1 1 2 4 9 = .ok s' ∧
      (get_ownership s' 1 1).shares = (get_ownership ownedState 1 1).shares - 4 ∧
      (get_ownership s' 1 2).shares = (get_ownership ownedState 1 2).shares + 4 ∧
      (get_ownership s' 1 1).shares + (get_ownership s' 1 2).shares
        = (get_ownership ownedState 1 1).shares
            + (get_ownership ownedState 1 2).shares :=
  transfer_shares_conservation ownedState 1 1 2 4 9
    { property_id := 1, owner := 1, shares := 10, purchase_time := 3 }
    (by decide) (by decide) (by decide)

/-- Claim C10: a self-transfer (`from = to`) by a sender holding at least
`shares` succeeds and leaves the single record at `old + shares` (the
recipient's record is read before the sender's decrement is stored and the
recipient write lands last on the same key), so the balance increases for
any positive `shares` instead of staying constant. -/
theorem transfer_shares_self (s : ContractState) (property_id : Nat)
    (A : Address) (shares now : Nat) (O : OwnershipShare)
    (hO : s.ownership property_id A = some O) (hsh : shares ≤ O.shares) :
    ∃ s', transfer_shares s property_id A A shares now = .ok s' ∧
      s'.ownership property_id A
        = some { property_id := property_id, owner := A,
                 shares := O.shares + shares, purchase_time := now } ∧
      (get_ownership s' property_id A).shares
          = (get_ownership s property_id A).shares + shares ∧
      (0 < shares → (get_ownership s property_id A).shares
          < (get_ownership s' property_id A).shares) := by
  obtain ⟨s', hok, hB, -, -⟩ :=
    transfer_shares_spec A shares now hO (by omega)
  have hsA : (get_ownership s property_id A).shares = O.shares := by
    simp [get_ownership, hO]
  have h2 : (get_ownership s' property_id A).shares
      = (get_ownership s property_id A).shares + shares := by
    simp [get_ownership, hB]
  refine ⟨s', hok, ?_, h2, ?_⟩
  · rw [hB, hsA]
  · intro hpos
    rw [h2]
    omega

/-- Witness for C10: the self-transfer of 4 from a balance of 10 yields a
balance of 14 on the concrete reachable state. -/
theorem transfer_shares_self_witness :
    ∃ s', transfer_shares ownedState 1 1 1 4 9 = .ok s' ∧
      s'.ownership 1 1
        = some { property_id := 1, owner := 1, shares := 14,
                 purchase_time := 9 } ∧
      (get_ownership s' 1 1).shares = (get_ownership ownedState 1 1).shares + 4 ∧
      (0 < 4 → (get_ownership ownedState 1 1).shares
          < (get_ownership s' 1 1).shares) :=
  transfer_shares_self ownedState 1 1 4 9
    { property_id := 1, owner := 1, shares := 10, purchase_time := 3 }
    (by decide) (by decide)

/-- Claim C2: a buyer with no prior record purchasing 10 then 5 shares of
the same verified property ends with a balance of 15; `total_owners` grows
by exactly 1 (only on the first purchase) and `total_transactions` by
exactly 2 over the two purchases. -/
theorem purchase_shares_twice (s : ContractState) (property_id : Nat)
    (P : Property) (buyer : Address) (t1 t2 : Nat)
    (hP : s.properties property_id = some P) (hv : P.is_verified = true)
    (h0 : s.ownership property_id buyer = none) :
    ∃ s1 s2, purchase_shares s property_id 10 buyer t1 = .ok s1 ∧
      purchase_shares s1 property_id 5 buyer t2 = .ok s2 ∧
      (get_ownership s2 property_id buyer).shares = 15 ∧
      (get_property_stats s1).total_owners
          = (get_property_stats s).total_owners + 1 ∧
      (get_property_stats s2).total_owners
          = (get_property_stats s).total_owners + 1 ∧
      (get_property_stats s1).total_transactions
          = (get_property_stats s).total_transactions + 1 ∧
      (get_property_stats s2).total_transactions
          = (get_property_stats s).total_transactions + 2 := by
  obtain ⟨s1, hok1, hprops1, hown1, -, hstats1⟩ :=
    purchase_shares_new 10 buyer t1 hP hv h0
  have hP1 : s1.properties property_id = some P := by rw [hprops1]; exact hP
  obtain ⟨s2, hok2, -, hown2, -, hstats2⟩ :=
    purchase_shares_existing 5 buyer t2 hP1 hv hown1
  refine ⟨s1, s2, hok1, hok2, ?_, ?_, ?_, ?_, ?_⟩
  · simp [get_ownership, hown2]
  · rw [hstats1]
  · rw [hstats2, hstats1]
  · rw [hstats1]
  · rw [hstats2, hstats1]

/-- Witness for C2: buyer 2 makes the two purchases of the concrete
verified property 1. -/
theorem purchase_shares_twice_witness :
    ∃ s1 s2, purchase_shares verifiedState 1 10 2 3 = .ok s1 ∧
      purchase_shares s1 1 5 2 4 = .ok s2 ∧
      (get_ownership s2 1 2).shares = 15 ∧
      (get_property_stats s1).total_owners
          = (get_property_stats verifiedState).total_owners + 1 ∧
      (get_property_stats s2).total_owners
          = (get_property_stats verifiedState).total_owners + 1 ∧
      (get_property_stats s1).total_transactions
          = (get_property_stats verifiedState).total_transactions + 1 ∧
      (get_property_stats s2).total_transactions
          = (get_property_stats verifiedState).total_transactions + 2 :=
  purchase_shares_twice verifiedState 1 { propA with is_verified := true }
    2 3 4 (by decide) rfl (by decide)

/-- Counterexample to C5 as stated: the reachable sequence
`register; initialize; verify 1; register` first sets property 1's
`verified` flag to true, then the final register (with the counter reset
to 0 by `initialize`) overwrites property 1 with a fresh unverified
record: the flag reverts from true to false. -/
theorem verify_property_revert_cex :
    Reachable preInitVerifiedState ∧
    (preInitVerifiedState.properties 1).map Property.is_verified
        = some true ∧
    Reachable (execOp preInitVerifiedState regB) ∧
    ((execOp preInitVerifiedState regB).properties 1).map
        Property.is_verified = some false :=
  ⟨⟨[regA, .initOp 0, .verifyOp 1], rfl⟩, by decide,
    ⟨[regA, .initOp 0, .verifyOp 1, regB], rfl⟩, by decide⟩

/-- Claim C5 (amended: on an instance whose first call is `initialize`,
the intended usage): `verifyProperty` on an initialized instance flips an
unverified property's flag to true and increments `verifiedProperties`;
on an already-verified property it fails with `AlreadyVerified` (it does
not no-op); and no sequence of further calls ever reverts a `verified`
flag from true to false. -/
theorem verify_property_once :
    (∀ s property_id P, s.contract_admin.isSome = true →
      s.properties property_id = some P → P.is_verified = false →
      ∃ s', verify_property s property_id = .ok s' ∧
        s'.properties property_id = some { P with is_verified := true } ∧
        (get_property_stats s').verified_properties
          = (get_property_stats s).verified_properties + 1) ∧
    (∀ s property_id P, s.contract_admin.isSome = true →
      s.properties property_id = some P → P.is_verified = true →
      verify_property s property_id = .error .AlreadyVerified) ∧
    (∀ s, InitReachable s → ∀ ops property_id P,
      s.properties property_id = some P → P.is_verified = true →
      ∃ P', (execOps s ops).properties property_id = some P' ∧
        P'.is_verified = true) := by
  refine ⟨?_, ?_, ?_⟩
  · intro s pid P hadm hP hv
    obtain ⟨a, ha⟩ := Option.isSome_iff_exists.mp hadm
    simp only [verify_property, ha, hP, hv, Bool.false_eq_true, if_false]
    exact ⟨_, rfl, by simp, by simp [get_property_stats]⟩
  · intro s pid P hadm hP hv
    obtain ⟨a, ha⟩ := Option.isSome_iff_exists.mp hadm
    simp [verify_property, ha, hP, hv]
  · intro s hreach ops pid P hP hv
    have hinv := initReachable_Inv hreach
    rcases execOps_properties_mono ops hinv hP with h1 | ⟨hf, -⟩
    · exact ⟨P, h1, hv⟩
    · rw [hv] at hf
      cases hf

/-- Witness for C5 (amended): verification of the concrete unverified
property 1 succeeds; re-verification fails with `AlreadyVerified`; the
flag survives a later register and purchase. -/
theorem verify_property_once_witness :
    (∃ s', verify_property unverifiedState 1 = .ok s' ∧
      s'.properties 1 = some { propA with is_verified := true } ∧
      (get_property_stats s').verified_properties
        = (get_property_stats unverifiedState).verified_properties + 1) ∧
    verify_property verifiedState 1 = .error .AlreadyVerified ∧
    (∃ P', (execOps verifiedState [regB, .purchaseOp 1 3 2 7]).properties 1
        = some P' ∧ P'.is_verified = true) :=
  ⟨verify_property_once.1 unverifiedState 1 propA rfl (by decide) rfl,
    verify_property_once.2.1 verifiedState 1
      { propA with is_verified := true } rfl (by decide) rfl,
    verify_property_once.2.2 verifiedState ⟨0, [regA, .verifyOp 1], rfl⟩
      [regB, .purchaseOp 1 3 2 7] 1 { propA with is_verified := true }
      (by decide) rfl⟩

/-- Counterexample to C6 as stated: on the reachable sequence
`register("Alpha"); initialize; register("Beta")` both registrations
return id 1, and the second overwrites the first record: the id is reused
for another property. -/
theorem register_property_id_reuse_cex :
    (register_property initState "Alpha" "loc" "desc" 100 1 "img" 0).1
        = 1 ∧
    (preInitRegState.properties 1).map Property.title = some "Alpha" ∧
    (register_property preInitRegState
        "Beta" "loc2" "desc2" 50 2 "img2" 5).1 = 1 ∧
    ((register_property preInitRegState
        "Beta" "loc2" "desc2" 50 2 "img2" 5).2.properties 1).map
        Property.title = some "Beta" ∧
    Reachable (register_property preInitRegState
        "Beta" "loc2" "desc2" 50 2 "img2" 5).2 :=
  ⟨by decide, by decide, by decide, by decide,
    ⟨[regA, .initOp 0, regB], rfl⟩⟩

/-- Claim C6 (amended: on an instance whose first call is `initialize`):
the first registration after initialization returns id 1; from any state
two successive registrations return consecutive distinct ids n and n+1;
and after initialization a stored property record is never replaced by a
different property (at most its `verified` flag changes). -/
theorem register_property_sequential_ids :
    (∀ a t l d ts pps iu now,
      (register_property (postInitState a) t l d ts pps iu now).1 = 1) ∧
    (∀ s t1 l1 d1 ts1 pps1 iu1 n1 t2 l2 d2 ts2 pps2 iu2 n2,
      (register_property (register_property s t1 l1 d1 ts1 pps1 iu1 n1).2
          t2 l2 d2 ts2 pps2 iu2 n2).1
        = (register_property s t1 l1 d1 ts1 pps1 iu1 n1).1 + 1 ∧
      (register_property (register_property s t1 l1 d1 ts1 pps1 iu1 n1).2
          t2 l2 d2 ts2 pps2 iu2 n2).1
        ≠ (register_property s t1 l1 d1 ts1 pps1 iu1 n1).1) ∧
    (∀ s, InitReachable s → ∀ ops n P, s.properties n = some P →
      ∃ P', (execOps s ops).properties n = some P' ∧
        (P' = P ∨ P' = { P with is_verified := true })) := by
  refine ⟨?_, ?_, ?_⟩
  · intro a t l d ts pps iu now
    rfl
  · intro s t1 l1 d1 ts1 pps1 iu1 n1 t2 l2 d2 ts2 pps2 iu2 n2
    constructor
    · simp [register_property]
    · simp [register_property]
  · intro s hreach ops n P hP
    have hinv := initReachable_Inv hreach
    rcases execOps_properties_mono ops hinv hP with h1 | ⟨-, h1⟩
    · exact ⟨P, h1, .inl rfl⟩
    · exact ⟨{ P with is_verified := true }, h1, .inr rfl⟩

/-- Witness for C6 (amended): concrete first registration after
initialization returns 1; two successive registrations from the concrete
verified state return 2 and 3; the stored record of property 1 survives a
later purchase unchanged up to its verified flag. -/
theorem register_property_sequential_ids_witness :
    (register_property (postInitState 0)
        "Alpha" "loc" "desc" 100 1 "img" 0).1 = 1 ∧
    ((register_property (register_property verifiedState
          "Beta" "loc2" "desc2" 50 2 "img2" 5).2
          "Gamma" "l3" "d3" 7 3 "i3" 6).1
        = (register_property verifiedState
            "Beta" "loc2" "desc2" 50 2 "img2" 5).1 + 1 ∧
      (register_property (register_property verifiedState
          "Beta" "loc2" "desc2" 50 2 "img2" 5).2
          "Gamma" "l3" "d3" 7 3 "i3" 6).1
        ≠ (register_property verifiedState
            "Beta" "loc2" "desc2" 50 2 "img2" 5).1) ∧
    (∃ P', (execOps verifiedState [.purchaseOp 1 3 2 7]).properties 1
        = some P' ∧
      (P' = { propA with is_verified := true } ∨
        P' = { { propA with is_verified := true } with
                is_verified := true })) :=
  ⟨register_property_sequential_ids.1 0 "Alpha" "loc" "desc" 100 1 "img" 0,
    register_property_sequential_ids.2.1 verifiedState
      "Beta" "loc2" "desc2" 50 2 "img2" 5 "Gamma" "l3" "d3" 7 3 "i3" 6,
    register_property_sequential_ids.2.2 verifiedState
      ⟨0, [regA, .verifyOp 1], rfl⟩ [.purchaseOp 1 3 2 7] 1
      { propA with is_verified := true } (by decide)⟩

/-- Claim C7: on every reachable state, `list_properties` returns at most
`limit + 1` entries; every returned property carries an id between 1 and
the current counter, lies in `[start_idx, start_idx + limit]`, and is the
record stored under its id; conversely every id of the clamped range
(upper bound never above the counter, ids ≤ 0 skipped) with a record
present is returned — a missing record is silently omitted, not an error. -/
theorem list_properties_bounds (s : ContractState) (hs : Reachable s)
    (start_idx limit : Nat) :
    (list_properties s start_idx limit).length ≤ limit + 1 ∧
    (∀ P ∈ list_properties s start_idx limit,
      1 ≤ P.property_id ∧ P.property_id ≤ s.property_counter.getD 0 ∧
      start_idx ≤ P.property_id ∧ P.property_id ≤ start_idx + limit ∧
      s.properties P.property_id = some P) ∧
    (∀ i P, start_idx ≤ i → i ≤ start_idx + limit →
      i ≤ s.property_counter.getD 0 → 1 ≤ i →
      s.properties i = some P → P ∈ list_properties s start_idx limit) := by
  have hId := reachable_IdMatch hs
  have hlist : list_properties s start_idx limit
      = (List.range' start_idx
          ((if start_idx + limit > s.property_counter.getD 0
              then s.property_counter.getD 0
              else start_idx + limit) + 1 - start_idx)).filterMap
          (fun i => if 0 < i then s.properties i else none) := rfl
  have key : ∀ i : Nat, i ∈ List.range' start_idx
      ((if start_idx + limit > s.property_counter.getD 0
          then s.property_counter.getD 0
          else start_idx + limit) + 1 - start_idx) ↔
      (start_idx ≤ i ∧ i ≤ start_idx + limit ∧
        i ≤ s.property_counter.getD 0) := by
    intro i
    rw [List.mem_range'_1]
    constructor
    · rintro ⟨ha, hb⟩
      split at hb <;> omega
    · rintro ⟨ha, hb, hc⟩
      refine ⟨ha, ?_⟩
      split <;> omega
  refine ⟨?_, ?_, ?_⟩
  · rw [hlist]
    refine le_trans (List.length_filterMap_le _ _) ?_
    rw [List.length_range']
    split <;> omega
  · intro P hP
    rw [hlist, List.mem_filterMap] at hP
    obtain ⟨i, hi, hfi⟩ := hP
    rw [key i] at hi
    by_cases h0 : 0 < i
    · rw [if_pos h0] at hfi
      have hid := hId i P hfi
      refine ⟨by omega, ?_, ?_, ?_, ?_⟩ <;> rw [hid]
      · exact hi.2.2
      · exact hi.1
      · exact hi.2.1
      · exact hfi
    · rw [if_neg h0] at hfi
      simp at hfi
  · intro i P h1 h2 h3 h4 hP
    rw [hlist, List.mem_filterMap]
    exact ⟨i, (key i).mpr ⟨h1, h2, h3⟩, by rw [if_pos (by omega)]; exact hP⟩

/-- Witness for C7: the bounds hold at the concrete reachable state with
one verified property, `start_idx = 0`, `limit = 5`. -/
theorem list_properties_bounds_witness :
    (list_properties verifiedState 0 5).length ≤ 6 ∧
    (∀ P ∈ list_properties verifiedState 0 5,
      1 ≤ P.property_id ∧
      P.property_id ≤ verifiedState.property_counter.getD 0 ∧
      0 ≤ P.property_id ∧ P.property_id ≤ 0 + 5 ∧
      verifiedState.properties P.property_id = some P) ∧
    (∀ i P, 0 ≤ i → i ≤ 0 + 5 →
      i ≤ verifiedState.property_counter.getD 0 → 1 ≤ i →
      verifiedState.properties i = some P →
      P ∈ list_properties verifiedState 0 5) :=
  list_properties_bounds verifiedState
    ⟨[.initOp 0, regA, .verifyOp 1], rfl⟩ 0 5

/-- Counterexample to C8 as stated: `register_property` succeeds on the
fresh uninitialized instance and changes the stats; moreover after
`register; initialize` the stats read back as the zero record even though
a mutation happened (property 1 is stored). -/
theorem register_before_init_cex :
    initState.contract_admin = none ∧
    (step initState regA).isOk = true ∧
    (get_property_stats (execOp initState regA)).total_properties = 1 ∧
    get_property_stats preInitRegState = zeroStats ∧
    (preInitRegState.properties 1).isSome = true ∧
    Reachable preInitRegState :=
  ⟨rfl, by decide, by decide, by decide, by decide,
    ⟨[regA, .initOp 0], rfl⟩⟩

/-- Claim C8 (amended): on a fresh uninitialized instance `verifyProperty`
fails with `NotInitialized`, `purchaseShares` fails with `NotFound` and
`transferShares` with `NoBalance` (all stores are empty) — but
`registerProperty` succeeds without initialization (the counter and stats
read with zero defaults), so the zero stats record is not exclusive to an
instance that has never seen a mutation. -/
theorem uninitialized_mutations :
    (∀ property_id,
      verify_property initState property_id = .error .NotInitialized) ∧
    (∀ property_id shares buyer now,
      purchase_shares initState property_id shares buyer now
        = .error .NotFound) ∧
    (∀ property_id sender receiver shares now,
      transfer_shares initState property_id sender receiver shares now
        = .error .NoBalance) ∧
    (∀ t l d ts pps iu now,
      (step initState (.registerOp t l d ts pps iu now)).isOk = true) :=
  ⟨fun _ => rfl, fun _ _ _ _ => rfl, fun _ _ _ _ _ => rfl,
    fun _ _ _ _ _ _ _ => rfl⟩

/-- Claim C9: `purchase_shares` performs no check against the property's
`total_shares`: on a reachable state a verified property with
`total_shares = 1` has a single owner holding 2 shares (all other owners
hold 0), so the sum over any complete owner list exceeds the supply. -/
theorem purchase_shares_oversell :
    Reachable oversoldState ∧
    ∃ P, oversoldState.properties 1 = some P ∧
      P.total_shares = 1 ∧
      (get_ownership oversoldState 1 1).shares = 2 ∧
      (∀ a, a ≠ 1 → (get_ownership oversoldState 1 a).shares = 0) ∧
      (∀ owners : List Address, 1 ∈ owners →
        P.total_shares < owners_shares_sum oversoldState 1 owners) := by
  refine ⟨⟨oversoldOps, rfl⟩,
    { property_id := 1, title := "T", location := "t", description := "t",
      total_shares := 1, price_per_share := 1, image_url := "t",
      registration_time := 0, is_verified := true },
    by decide, by decide, by decide, ?_, ?_⟩
  · intro a ha
    have hred : oversoldState.ownership 1 a
        = if 1 = 1 ∧ a = 1 then
            some { property_id := 1, owner := 1, shares := 2,
                   purchase_time := 0 }
          else none := rfl
    simp [get_ownership, hred, ha]
  · intro owners hmem
    have hval : (get_ownership oversoldState 1 1).shares = 2 := by decide
    have hmm : (get_ownership oversoldState 1 1).shares ∈
        owners.map fun a => (get_ownership oversoldState 1 a).shares :=
      List.mem_map_of_mem _ hmem
    have hle := List.single_le_sum (fun x _ => Nat.zero_le x) _ hmm
    rw [hval] at hle
    show (1 : Nat) < owners_shares_sum oversoldState 1 owners
    unfold owners_shares_sum
    omega

/-- Witness for C9: the sum over the singleton complete owner list `[1]`
already exceeds the supply. -/
theorem purchase_shares_oversell_witness :
    ∃ P, oversoldState.properties 1 = some P ∧
      P.total_shares < owners_shares_sum oversoldState 1 [1] := by
  obtain ⟨-, P, hP, -, -, -, hsum⟩ := purchase_shares_oversell
  exact ⟨P, hP, hsum [1] (by decide)⟩

end RealEstate
